/-
Verification of the pyqtconsole core (log.py, stream.py, console.py).

Shallow embedding: Python lists of cumulative offsets become `List Int`
(Python integers are unbounded), the `queue.Queue` backlog of a `Stream`
becomes a FIFO `List String`, Qt signal emissions become an explicit event
log, and fallible operations (`IndexError`, `AttributeError`, `queue.Empty`)
return `Except`.  Each definition mirrors one Python function; comments cite
the mirrored lines.
-/
import Mathlib

/-- Python exceptions that the modelled code can raise. -/
inductive PyErr
  | indexError
  | attributeError
deriving DecidableEq

deriving instance DecidableEq for Except

/-! ### Partition (log.py, class Partition)

State: the offset list `self._locs` (initially `[0]`).  All reachable states
have a nonempty `_locs`, so `getD _ 0` faithfully models in-range indexing
whenever the index bounds have been checked. -/

/-- Source: `Partition.__init__`: `self._locs = [0]`. -/
def Partition.init : List Int := [0]

/-- Source: `Partition.__len__`: `len(self._locs) - 1`. -/
def Partition.size (locs : List Int) : Nat := locs.length - 1

/-- Source: `Partition._check_index`: raise `IndexError` when
`index < -len(self) or index >= len(self)`, otherwise turn a negative index
into `index + len(self)`. -/
def Partition.check_index (locs : List Int) (i : Int) : Except PyErr Nat :=
  if i < -((Partition.size locs : Nat) : Int) ∨ ((Partition.size locs : Nat) : Int) ≤ i then
    .error .indexError
  else if i < 0 then .ok (i + ((Partition.size locs : Nat) : Int)).toNat
  else .ok i.toNat

/-- Source: `Partition._update_locs(start_index, added_lines)`:
`for i in range(start_index, len(self._locs)): self._locs[i] += added_lines`. -/
def Partition.update_locs (locs : List Int) (start : Nat) (added : Int) : List Int :=
  locs.mapIdx (fun i v => if start ≤ i then v + added else v)

/-- Source: `Partition.__getitem__`: `self._locs[index + 1] - self._locs[index]`. -/
def Partition.get_item (locs : List Int) (i : Int) : Except PyErr Int :=
  match Partition.check_index locs i with
  | .error e => .error e
  | .ok j => .ok (locs.getD (j + 1) 0 - locs.getD j 0)

/-- Source: `Partition.__setitem__`: as written in the source,
`self._update_locs(index + 1, size - self._locs[index])` — note that the
subtrahend is the cumulative offset `self._locs[index]`, not the current
chunk size `self[index]`. -/
def Partition.set_item (locs : List Int) (i : Int) (size : Int) : Except PyErr (List Int) :=
  match Partition.check_index locs i with
  | .error e => .error e
  | .ok j => .ok (Partition.update_locs locs (j + 1) (size - locs.getD j 0))

/-- Source: `Partition.__delitem__`: as written in the source,
`size = self._locs.pop(index)` followed by `self._update_locs(index, -size)` —
the value popped (and then subtracted from the suffix) is the cumulative
offset at `index`, not the chunk size. -/
def Partition.del_item (locs : List Int) (i : Int) : Except PyErr (List Int) :=
  match Partition.check_index locs i with
  | .error e => .error e
  | .ok j => .ok (Partition.update_locs (locs.eraseIdx j) j (-(locs.getD j 0)))

/-- Source: `self._locs[-1]`, i.e. the element at index `len - 1`. -/
def Partition.end_loc (locs : List Int) : Int := locs.getD (locs.length - 1) 0

/-- Source: `Partition.append`: `self._locs.append(self._locs[-1] + size)`. -/
def Partition.append (locs : List Int) (size : Int) : List Int :=
  locs ++ [Partition.end_loc locs + size]

/-- Source: `Partition.insert`: `self._locs.insert(index, self._locs[index])` then
`self._update_locs(index + 1, size)`. -/
def Partition.insert (locs : List Int) (i : Int) (size : Int) : Except PyErr (List Int) :=
  match Partition.check_index locs i with
  | .error e => .error e
  | .ok j => .ok (Partition.update_locs (List.insertIdx j (locs.getD j 0) locs) (j + 1) size)

/-- One `while lo < hi` loop of `bisect.bisect_left` from the Python
standard library: `mid = (lo + hi) // 2`, go right when `a[mid] < x`.
The loop narrows `hi - lo` by at least one per iteration, so running it
with `fuel = hi - lo` rounds reaches `lo = hi` exactly as the Python loop
does (structural fuel recursion is used so that the definition evaluates
by kernel reduction).  All iterations keep `mid` inside `[lo, hi)`, so
`getD _ 0` models the in-range accesses `a[mid]`. -/
def bisect_left_loop (a : List Int) (x : Int) : Nat → Nat → Nat → Nat
  | 0, lo, _ => lo
  | fuel + 1, lo, hi =>
      if lo < hi then
        if a.getD ((lo + hi) / 2) 0 < x then bisect_left_loop a x fuel ((lo + hi) / 2 + 1) hi
        else bisect_left_loop a x fuel lo ((lo + hi) / 2)
      else lo

/-- Source: `bisect.bisect_left(a, x, lo=0, hi=len(a))`. -/
def bisect_left (a : List Int) (x : Int) (lo hi : Nat) : Nat :=
  bisect_left_loop a x (hi - lo) lo hi

/-- Source: `Partition.find_loc`: `bisect_left(self._locs, loc)`. -/
def Partition.find_loc (locs : List Int) (loc : Int) : Nat :=
  bisect_left locs loc 0 locs.length

/-- Source: `Partition.first`: `self._locs[index]` after `_check_index`. -/
def Partition.first (locs : List Int) (i : Int) : Except PyErr Int :=
  match Partition.check_index locs i with
  | .error e => .error e
  | .ok j => .ok (locs.getD j 0)

/-- Source: `Partition.last`: `self._locs[index + 1] - 1` after `_check_index`. -/
def Partition.last (locs : List Int) (i : Int) : Except PyErr Int :=
  match Partition.check_index locs i with
  | .error e => .error e
  | .ok j => .ok (locs.getD (j + 1) 0 - 1)

/-! ### Stream (stream.py, class Stream) -/

/-- Qt signal emissions performed by a `Stream` (write_event, flush_event,
close_event), recorded in order. -/
inductive QtEvent
  | writeEvent (data : String)
  | flushEvent (data : String)
  | closeEvent
deriving DecidableEq

/-- A `Stream`: the `queue.Queue` backlog (FIFO, head = next item handed to
`get`) plus the log of emitted Qt signals. -/
structure StreamState where
  queue : List String
  events : List QtEvent
deriving DecidableEq

/-- Source: `Stream.__init__`: `self._queue = Queue()` (and no other attribute). -/
def Stream.init : StreamState := { queue := [], events := [] }

/-- Reading `self._buffer` in `Stream.write`: `__init__` creates only
`_queue`, and `_buffer` is assigned nowhere in the class, so the attribute
lookup finds nothing (Python raises `AttributeError`). -/
def Stream.buffer_attr (_ : StreamState) : Option String := none

/-- Reading `self._line_cond` in `Stream.write`: likewise never assigned. -/
def Stream.line_cond_attr (_ : StreamState) : Option Unit := none

/-- Outcome of `Queue.get`: an item, the `queue.Empty` exception (raised
immediately in non-blocking mode, or after the timeout elapses), or an
indefinite blocking wait (nothing else runs in this sequential model, so a
blocked `get` never returns). -/
inductive ReadOutcome
  | value (s : String)
  | emptyExc
  | blocked
deriving DecidableEq

/-- Source: `Stream.readline(timeout=None)`:
`self._queue.get(block=timeout != 0, timeout=timeout)`.  `timeout = none`
models Python `None` (block forever), `some 0` models `timeout=0`
(non-blocking), `some (t+1)` a positive timeout.  A `get` on a nonempty
queue pops the head; on an empty queue it raises `Empty` when non-blocking,
otherwise it blocks (for `some (t+1)` the wait ends in `queue.Empty`, which
`blocked` also covers: no writer exists in the sequential model). -/
def Stream.readline (st : StreamState) (timeout : Option Nat) : ReadOutcome × StreamState :=
  match st.queue with
  | s :: rest => (.value s, { st with queue := rest })
  | [] => if timeout = some 0 then (.emptyExc, st) else (.blocked, st)

/-- Source: `Stream.write(data)`: under the queue mutex the source evaluates
`'\n' in self._buffer` — but `self._buffer` does not exist, so the lookup
raises `AttributeError`; neither the queue nor the event log is touched.
The remaining branches (notify `self._line_cond`, emit `write_event`) are
kept for faithfulness but are unreachable. -/
def Stream.write (st : StreamState) (data : String) : Except PyErr StreamState :=
  match Stream.buffer_attr st with
  | none => .error .attributeError
  | some b =>
      if b.contains '\n' then
        match Stream.line_cond_attr st with
        | none => .error .attributeError
        | some _ => .ok { st with events := st.events ++ [.writeEvent data] }
      else .ok { st with events := st.events ++ [.writeEvent data] }

/-- Source: `Stream._reset_buffer`: under the mutex, join the queued items and clear
the queue, returning the joined backlog. -/
def Stream.reset_buffer (st : StreamState) : String × StreamState :=
  (String.join st.queue, { st with queue := [] })

/-- Source: `Stream._flush`: `data = self._reset_buffer()` then
`self._queue.put('')`; returns `data`. -/
def Stream.flush_core (st : StreamState) : String × StreamState :=
  let r := Stream.reset_buffer st
  (r.1, { r.2 with queue := r.2.queue ++ [""] })

/-- Source: `Stream.flush`: `data = self._flush()`, `self.flush_event.emit(data)`,
`return data`. -/
def Stream.flush (st : StreamState) : String × StreamState :=
  let r := Stream.flush_core st
  (r.1, { r.2 with events := r.2.events ++ [.flushEvent r.1] })

/-- Source: `Stream.close`: `self.close_event.emit()` and nothing else. -/
def Stream.close (st : StreamState) : StreamState :=
  { st with events := st.events ++ [.closeEvent] }

/-! ### Log (log.py, class Log) and LogRecord (console.py) -/

/-- Source: `LogRecord(domain, prompt, text)` from console.py. -/
structure LogRecord where
  domain : String
  prompt : String
  text : String
deriving DecidableEq

/-- Source: `LogRecord.num_lines`: `self.prompt.count('\n')`. -/
def LogRecord.num_lines (r : LogRecord) : Nat := r.prompt.toList.count '\n'

/-- The three containers of a `Log`: `records`, `linenos`, `positions`. -/
structure LogState where
  records : List LogRecord
  linenos : List Int
  positions : List Int
deriving DecidableEq

/-- Source: `Log.__init__`. -/
def Log.init : LogState := { records := [], linenos := [0], positions := [0] }

/-- Python `lst[i] = v` on a plain list: negative indices count from the
end, out-of-range raises `IndexError`. -/
def pylistSet {α : Type} (l : List α) (i : Int) (v : α) : Except PyErr (List α) :=
  if i < -((l.length : Nat) : Int) ∨ ((l.length : Nat) : Int) ≤ i then .error .indexError
  else if i < 0 then .ok (l.set (i + ((l.length : Nat) : Int)).toNat v)
  else .ok (l.set i.toNat v)

/-- Python `del lst[i]` on a plain list. -/
def pylistDel {α : Type} (l : List α) (i : Int) : Except PyErr (List α) :=
  if i < -((l.length : Nat) : Int) ∨ ((l.length : Nat) : Int) ≤ i then .error .indexError
  else if i < 0 then .ok (l.eraseIdx (i + ((l.length : Nat) : Int)).toNat)
  else .ok (l.eraseIdx i.toNat)

/-- Python `lst.insert(i, v)` on a plain list: never raises, clamps the
index into `[0, len]`. -/
def pylistInsert {α : Type} (l : List α) (i : Int) (v : α) : List α :=
  let j := if i < 0 then (i + ((l.length : Nat) : Int)).toNat else i.toNat
  List.insertIdx (min j l.length) v l

/-- Source: `Log.append(record)`: append to `records`, `linenos.append(num_lines)`,
`positions.append(len(text))`. -/
def Log.append (lg : LogState) (r : LogRecord) : LogState :=
  { records := lg.records ++ [r]
    linenos := Partition.append lg.linenos ((r.num_lines : Nat) : Int)
    positions := Partition.append lg.positions ((r.text.length : Nat) : Int) }

/-- Source: `Log.__setitem__(index, record)`: assign into all three containers. -/
def Log.set_item (lg : LogState) (i : Int) (r : LogRecord) : Except PyErr LogState := do
  let recs ← pylistSet lg.records i r
  let lin ← Partition.set_item lg.linenos i ((r.num_lines : Nat) : Int)
  let pos ← Partition.set_item lg.positions i ((r.text.length : Nat) : Int)
  pure { records := recs, linenos := lin, positions := pos }

/-- Source: `Log.__delitem__(index)`: delete from all three containers. -/
def Log.del_item (lg : LogState) (i : Int) : Except PyErr LogState := do
  let recs ← pylistDel lg.records i
  let lin ← Partition.del_item lg.linenos i
  let pos ← Partition.del_item lg.positions i
  pure { records := recs, linenos := lin, positions := pos }

/-- Source: `Log.insert(index, record)`: insert into all three containers. -/
def Log.insert_rec (lg : LogState) (i : Int) (r : LogRecord) : Except PyErr LogState := do
  let lin ← Partition.insert lg.linenos i ((r.num_lines : Nat) : Int)
  let pos ← Partition.insert lg.positions i ((r.text.length : Nat) : Int)
  pure { records := pylistInsert lg.records i r, linenos := lin, positions := pos }

/-! ### PythonConsole._cancel and Thread.inject_exception (console.py) -/

/-- The worker `Thread`: its `.ident` and the list of exception classes
asynchronously injected into it (via `PyThreadState_SetAsyncExc`). -/
structure WorkerThread where
  ident : Nat
  injected : List String
deriving DecidableEq

/-- Source: `Thread.inject_exception(value)`: injects only when
`self.ident != threading.current_thread().ident`. -/
def Thread.inject_exception (t : WorkerThread) (callerIdent : Nat) (exc : String) : WorkerThread :=
  if t.ident ≠ callerIdent then { t with injected := t.injected ++ [exc] } else t

/-- The parts of a `PythonConsole` that `_cancel` touches: the optional
worker thread and the stdin `Stream`. -/
structure ConsoleState where
  thread : Option WorkerThread
  stdin : StreamState
deriving DecidableEq

/-- Source: `PythonConsole._cancel`: `if self._thread:` inject `KeyboardInterrupt`
into the worker, then `self.stdin.flush()` (which enqueues the `''`
sentinel) to wake a worker blocked on input.  The function performs no
wait on the worker. -/
def PythonConsole.cancel (c : ConsoleState) (callerIdent : Nat) : ConsoleState :=
  match c.thread with
  | some t =>
      { thread := some (Thread.inject_exception t callerIdent "KeyboardInterrupt")
        stdin := (Stream.flush c.stdin).2 }
  | none => c

/-! ### BaseConsole._indent_selection (console.py) -/

/-- Python `str.split('\n')` on a list of characters. -/
def splitLines : List Char → List (List Char)
  | [] => [[]]
  | c :: cs =>
      let r := splitLines cs
      if c = '\n' then [] :: r
      else (c :: r.headD []) :: r.tail

/-- Source: `BaseConsole._indent_selection(cursor, indent=True)` on the input
buffer `buf` with tab string `tab`; `pos0`/`pos1` are the selection start
and end relative to `self._prompt_pos` (non-negative after clamping).
Returns the new buffer contents and the new relative selection endpoints.
The loop body follows the source: each selected line becomes `tab + line`
when indenting, else `line[:len(tab)].lstrip() + line[len(tab):]`;
`pos0 += num` only on the first selected line, `pos1 += num` on each. -/
def BaseConsole.indent_selection (buf tab : List Char) (pos0 pos1 : Nat) (indent : Bool) :
    List Char × Int × Int :=
  let line0 := (buf.take pos0).count '\n'
  let line1 := (buf.take pos1).count '\n'
  let lines := splitLines buf
  let step := fun (acc : List (List Char) × Int × Int) (i : Nat) =>
    let line := acc.1.getD i []
    let newLine := if indent then tab ++ line
      else (line.take tab.length).dropWhile (fun c => c.isWhitespace) ++ line.drop tab.length
    let num : Int := ((newLine.length : Nat) : Int) - ((line.length : Nat) : Int)
    (acc.1.set i newLine,
     (if i = line0 then acc.2.1 + num else acc.2.1),
     acc.2.2 + num)
  let res := (List.range' line0 (line1 + 1 - line0)).foldl step (lines, ((pos0 : Nat) : Int), ((pos1 : Nat) : Int))
  (List.intercalate ['\n'] res.1, res.2.1, res.2.2)

/-! ### Records used by the C4 evaluation -/

/-- A record with one line break in its prompt and one character of text. -/
def recA : LogRecord := { domain := "IN", prompt := "p\n", text := "a" }

/-- A record with two line breaks in its prompt and two characters of text. -/
def recB : LogRecord := { domain := "IN", prompt := "q\n\n", text := "bb" }

/-! ### Claim theorems -/

/-- C1: the claimed scenario (`write("ab")`, `write("c\n")`, `readline()`
returns `"abc"`, then a non-blocking readline returns empty) fails at its
first step: on a fresh `Stream`, `write("ab")` raises `AttributeError`
because `Stream.__init__` never creates the `_buffer` attribute that
`write` reads.  Nothing is ever enqueued, so a blocking `readline` blocks
and a non-blocking one raises `queue.Empty` instead of returning empty. -/
theorem C1_write_raises_attribute_error :
    Stream.write Stream.init "ab" = .error .attributeError ∧
    (Stream.readline Stream.init none).1 = .blocked ∧
    (Stream.readline Stream.init (some 0)).1 = .emptyExc := by
  decide

/-- C2: evaluation at the failing input.  On `locs = [0, 2, 5]` (chunks of
sizes 2 and 3), `insert(1, 4)` yields `[0, 2, 6, 9]`, and the subsequent
`delete(1)` yields `[0, 4, 7]`, not the original `[0, 2, 5]`:
`__delitem__` pops the cumulative offset `self._locs[index]` and subtracts
that offset (not the chunk size) from the suffix, so the round trip does
not restore the offset array. -/
theorem C2_insert_delete_roundtrip_fails :
    Partition.insert [0, 2, 5] 1 4 = .ok [0, 2, 6, 9] ∧
    Partition.del_item [0, 2, 6, 9] 1 = .ok [0, 4, 7] ∧
    ([0, 4, 7] : List Int) ≠ [0, 2, 5] := by
  decide

/-- C3: evaluation at the failing input.  On `locs = [0, 2]` (one chunk of
size 2), `set(0, 5)` yields `[0, 7]`: `__setitem__` shifts the suffix by
`size - self._locs[index]` (the cumulative offset) instead of
`size - self[index]` (the old chunk size), so afterwards `get(0)` is 7,
not the requested 5. -/
theorem C3_set_item_wrong_size :
    Partition.set_item [0, 2] 0 5 = .ok [0, 7] ∧
    Partition.get_item [0, 7] 0 = .ok 7 ∧
    (7 : Int) ≠ 5 := by
  decide

/-- C4: evaluation at the failing input.  Append `recA` to a fresh `Log`,
then replace it via `log[0] = recB`.  The containers keep equal lengths,
but `linenos` becomes `[0, 3]`, i.e. `linenos[0] = 3`, while
`recB.num_lines = 2` (and `positions[0] = 3` while `len(recB.text) = 2`):
the buggy `Partition.__setitem__` desynchronizes the chunk sizes from the
records, violating the lockstep invariant after a valid public operation. -/
theorem C4_log_lockstep_broken :
    Log.set_item (Log.append Log.init recA) 0 recB
      = .ok { records := [recB], linenos := [0, 3], positions := [0, 3] } ∧
    recB.num_lines = 2 ∧ recB.text.length = 2 ∧
    Partition.get_item [0, 3] 0 = .ok 3 ∧ (3 : Int) ≠ 2 := by
  decide

/-- C5: evaluation at the failing input.  The state `locs = [0, 4, 5, 6]`
is reachable (`append(4)`, `append(1)`, `append(1)` from a fresh
Partition); the valid operation `delete(2)` then yields `[0, 4, 1]`, whose
offsets are not monotonically non-decreasing and whose chunk 1 has size
`-3 < 0`: the invariant is not preserved by `__delitem__` as written. -/
theorem C5_partition_invariant_broken :
    Partition.append (Partition.append (Partition.append Partition.init 4) 1) 1
      = [0, 4, 5, 6] ∧
    Partition.del_item [0, 4, 5, 6] 2 = .ok [0, 4, 1] ∧
    ¬ List.Pairwise (α := Int) (· ≤ ·) [0, 4, 1] ∧
    Partition.get_item [0, 4, 1] 1 = .ok (-3) := by
  decide

/-- C8 counterexample: the claim that `close()` pushes a sentinel so that
readers are released and every later `readline` returns immediately with
EOF is false on the code.  On a fresh closed `Stream` the queue is still
empty, a blocking `readline` blocks, and a non-blocking one raises
`queue.Empty` — no EOF indication is ever produced. -/
theorem C8_close_counterexample :
    (Stream.close Stream.init).queue = [] ∧
    (Stream.readline (Stream.close Stream.init) none).1 = .blocked ∧
    (Stream.readline (Stream.close Stream.init) (some 0)).1 = .emptyExc := by
  decide

/-- C8 amended: `Stream.close` only emits `close_event`.  It never raises
and calling it repeatedly is harmless (the queue is untouched by one or
two closes), but it pushes no sentinel: after closing a stream whose queue
is empty, a blocking `readline` still blocks and a non-blocking one raises
`queue.Empty` instead of returning an EOF indication. -/
theorem C8_close_amended (st : StreamState) :
    (Stream.close st).queue = st.queue ∧
    (Stream.close (Stream.close st)).queue = st.queue ∧
    (st.queue = [] →
      (Stream.readline (Stream.close st) none).1 = .blocked ∧
      (Stream.readline (Stream.close st) (some 0)).1 = .emptyExc) := by
  refine ⟨rfl, rfl, fun h => ?_⟩
  simp [Stream.readline, Stream.close, h]

/-- C8 witness: the amended theorem applied to a fresh stream. -/
theorem C8_close_amended_witness :
    (Stream.readline (Stream.close Stream.init) none).1 = ReadOutcome.blocked ∧
    (Stream.readline (Stream.close Stream.init) (some 0)).1 = ReadOutcome.emptyExc :=
  (C8_close_amended Stream.init).2.2 rfl

/-- C10: `Stream.flush` first drains the whole backlog (returning the
joined contents) and then enqueues exactly one empty-string sentinel, so
after any flush the queue is exactly `[""]` — in particular non-empty —
and the next `readline`, blocking or not, immediately returns the empty
string (this is also what releases, with `""`, a reader that was blocked
in `readline` at flush time). -/
theorem C10_flush_sentinel (st : StreamState) :
    (Stream.flush st).1 = String.join st.queue ∧
    (Stream.flush st).2.queue = [""] ∧
    (Stream.flush st).2.queue ≠ [] ∧
    (Stream.readline (Stream.flush st).2 (some 0)).1 = .value "" ∧
    (Stream.readline (Stream.flush st).2 none).1 = .value "" := by
  refine ⟨rfl, rfl, ?_, rfl, rfl⟩
  simp [Stream.flush, Stream.flush_core, Stream.reset_buffer]

/-- C7: when a worker thread exists (and, as in the intended use, the
cancelling thread is not the worker itself), `PythonConsole._cancel`
injects `KeyboardInterrupt` into the worker thread and flushes stdin,
leaving exactly the `''` sentinel in the stdin queue, so a worker blocked
inside `Stream.readline` is released with `""` instead of remaining
blocked.  The function contains no wait on the worker: it returns after
the injection and the flush (fire-and-forget). -/
theorem C7_cancel_injects_and_wakes (c : ConsoleState) (caller : Nat) (t : WorkerThread)
    (hthread : c.thread = some t) (hident : t.ident ≠ caller) :
    (PythonConsole.cancel c caller).thread
      = some { t with injected := t.injected ++ ["KeyboardInterrupt"] } ∧
    (PythonConsole.cancel c caller).stdin.queue = [""] ∧
    (Stream.readline (PythonConsole.cancel c caller).stdin none).1 = .value "" := by
  unfold PythonConsole.cancel
  rw [hthread]
  refine ⟨?_, ?_, ?_⟩ <;>
    simp [Thread.inject_exception, hident, Stream.flush, Stream.flush_core,
      Stream.reset_buffer, Stream.readline]

/-- C7 witness: cancelling from thread ident 1 a console whose worker
thread has ident 7. -/
theorem C7_cancel_witness :
    (PythonConsole.cancel
        { thread := some { ident := 7, injected := [] }, stdin := Stream.init } 1).stdin.queue
      = [""] :=
  (C7_cancel_injects_and_wakes
    { thread := some { ident := 7, injected := [] }, stdin := Stream.init }
    1 { ident := 7, injected := [] } rfl (by decide)).2.1

/-- C9: with input buffer `"ab\ncd"`, tab width 4 and any selection
spanning both lines (start on line 0, i.e. `pos0 ≤ 2`; end on line 1,
i.e. `3 ≤ pos1 ≤ 5`), indenting prepends exactly four spaces to each of
the two lines (no snapping to a tab stop), shifts the selection start by
4 and the selection end by `2 * 4 = 8`. -/
theorem C9_indent_scenario (pos0 pos1 : Nat)
    (h0 : pos0 ≤ 2) (h1 : 3 ≤ pos1) (h2 : pos1 ≤ 5) :
    BaseConsole.indent_selection ("ab\ncd".toList) ("    ".toList) pos0 pos1 true
      = ("    ab\n    cd".toList, ((pos0 : Nat) : Int) + 4, ((pos1 : Nat) : Int) + 8) := by
  interval_cases pos0 <;> interval_cases pos1 <;> decide

/-! ### Binary-search facts used for C6 -/

/-- On a non-decreasing list, `getD` is monotone below the length. -/
theorem getD_mono (a : List Int) (hmono : List.Pairwise (· ≤ ·) a)
    (i j : Nat) (hij : i ≤ j) (hj : j < a.length) :
    a.getD i 0 ≤ a.getD j 0 := by
  rcases Nat.lt_or_ge i j with hlt | hge
  · rw [List.getD_eq_getElem a 0 (Nat.lt_trans hlt hj), List.getD_eq_getElem a 0 hj]
    exact List.pairwise_iff_getElem.mp hmono i j (Nat.lt_trans hlt hj) hj hlt
  · have h : i = j := Nat.le_antisymm hij hge
    rw [h]

/-- Correctness of the `bisect_left` loop on a sorted list, for any fuel
at least `hi - lo`: the result `r` lies in `[lo, hi]`, every entry in
`[lo, r)` is strictly below `x`, and when `r < hi` the entry at `r` is at
least `x` — i.e. `r` is the leftmost index in `[lo, hi)` whose entry is
`≥ x`, or `hi` if there is none. -/
theorem bisect_left_loop_spec (a : List Int) (x : Int)
    (hmono : List.Pairwise (· ≤ ·) a) :
    ∀ (fuel lo hi : Nat), hi - lo ≤ fuel → lo ≤ hi → hi ≤ a.length →
      lo ≤ bisect_left_loop a x fuel lo hi ∧ bisect_left_loop a x fuel lo hi ≤ hi ∧
      (∀ j, lo ≤ j → j < bisect_left_loop a x fuel lo hi → a.getD j 0 < x) ∧
      (bisect_left_loop a x fuel lo hi < hi →
        x ≤ a.getD (bisect_left_loop a x fuel lo hi) 0) := by
  intro fuel
  induction fuel with
  | zero =>
    intro lo hi hfuel hlohi hhile
    rw [bisect_left_loop]
    refine ⟨Nat.le_refl lo, hlohi, ?_, ?_⟩
    · intro j hj hjlt
      exact absurd (Nat.lt_of_le_of_lt hj hjlt) (Nat.lt_irrefl lo)
    · intro h
      omega
  | succ fuel ih =>
    intro lo hi hfuel hlohi hhile
    rw [bisect_left_loop]
    by_cases hlt : lo < hi
    · rw [if_pos hlt]
      by_cases hless : a.getD ((lo + hi) / 2) 0 < x
      · rw [if_pos hless]
        obtain ⟨h1, h2, h3, h4⟩ :=
          ih ((lo + hi) / 2 + 1) hi (by omega) (by omega) hhile
        refine ⟨by omega, h2, ?_, h4⟩
        intro j hj hjlt
        by_cases hjm : j < (lo + hi) / 2 + 1
        · have hmle : a.getD j 0 ≤ a.getD ((lo + hi) / 2) 0 :=
            getD_mono a hmono j ((lo + hi) / 2) (by omega) (by omega)
          exact lt_of_le_of_lt hmle hless
        · exact h3 j (by omega) hjlt
      · rw [if_neg hless]
        obtain ⟨h1, h2, h3, h4⟩ :=
          ih lo ((lo + hi) / 2) (by omega) (by omega) (by omega)
        refine ⟨h1, by omega, h3, ?_⟩
        intro hrh
        by_cases hr : bisect_left_loop a x fuel lo ((lo + hi) / 2) < (lo + hi) / 2
        · exact h4 hr
        · have heq : bisect_left_loop a x fuel lo ((lo + hi) / 2) = (lo + hi) / 2 := by omega
          rw [heq]
          exact not_lt.mp hless
    · rw [if_neg hlt]
      exact ⟨Nat.le_refl lo, hlohi,
        fun j hj hjlt => absurd (Nat.lt_of_le_of_lt hj hjlt) (Nat.lt_irrefl lo),
        fun h => absurd h hlt⟩

/-- Correctness of `bisect_left` on a sorted list (the loop run with fuel
exactly `hi - lo`). -/
theorem bisect_left_spec (a : List Int) (x : Int)
    (hmono : List.Pairwise (· ≤ ·) a) (lo hi : Nat) (hlohi : lo ≤ hi) (hhile : hi ≤ a.length) :
    lo ≤ bisect_left a x lo hi ∧ bisect_left a x lo hi ≤ hi ∧
    (∀ j, lo ≤ j → j < bisect_left a x lo hi → a.getD j 0 < x) ∧
    (bisect_left a x lo hi < hi → x ≤ a.getD (bisect_left a x lo hi) 0) :=
  bisect_left_loop_spec a x hmono (hi - lo) lo hi (Nat.le_refl _) hlohi hhile

/-- C6 counterexample: the claim fails at explicit inputs.  On the empty
Partition (`locs = [0]`, reached by the empty history) with `pos = 0`
(which lies in `[0, total_size] = [0, 0]`), `find_loc` returns 0, which is
not a valid index for `first`/`last` (both raise `IndexError`).  And on
`locs = [0, 2, 5]` (reached by `append(2)`, `append(3)`) with the interior
position `pos = 1`, `find_loc` returns 1 whose chunk start `first(1) = 2`
exceeds `pos`, so `first(i) <= pos` fails as well. -/
theorem C6_find_loc_counterexample :
    (Partition.find_loc Partition.init 0 = 0 ∧
     Partition.first Partition.init 0 = .error .indexError ∧
     Partition.last Partition.init 0 = .error .indexError) ∧
    (Partition.append (Partition.append Partition.init 2) 3 = [0, 2, 5] ∧
     Partition.find_loc [0, 2, 5] 1 = 1 ∧
     Partition.first [0, 2, 5] 1 = .ok 2 ∧
     ¬ ((2 : Int) ≤ 1)) := by
  decide

/-- C6 amended: on every Partition state satisfying the intended invariant
(nonempty, monotonically non-decreasing offsets starting at 0) and every
`pos` in `[0, total_size]`, `find_loc pos` is at most the number of
chunks; `find_loc 0 = 0`; and for `pos ≥ 1` the index `i := find_loc pos`
satisfies `i ≥ 1`, the index `i - 1` is valid for `first`/`last`, and
`first(i-1) < pos ≤ last(i-1) + 1` — `find_loc` returns the leftmost index
whose offset is `≥ pos`, so the chunk containing `pos - 1` is `i - 1`, and
the original `first(i) ≤ pos` holds only when `pos` is exactly a chunk
start. -/
theorem C6_find_loc_amended (locs : List Int) (pos : Int)
    (hmono : List.Pairwise (· ≤ ·) locs)
    (hne : locs ≠ [])
    (hhead : locs.headD 1 = 0)
    (_hpos0 : 0 ≤ pos)
    (hposle : pos ≤ Partition.end_loc locs) :
    Partition.find_loc locs pos ≤ locs.length - 1 ∧
    (pos = 0 → Partition.find_loc locs pos = 0) ∧
    (1 ≤ pos →
      1 ≤ Partition.find_loc locs pos ∧
      Partition.first locs ((Partition.find_loc locs pos : Nat) - 1 : Int)
        = .ok (locs.getD (Partition.find_loc locs pos - 1) 0) ∧
      Partition.last locs ((Partition.find_loc locs pos : Nat) - 1 : Int)
        = .ok (locs.getD (Partition.find_loc locs pos) 0 - 1) ∧
      locs.getD (Partition.find_loc locs pos - 1) 0 < pos ∧
      pos ≤ (locs.getD (Partition.find_loc locs pos) 0 - 1) + 1) := by
  have hlen : 1 ≤ locs.length := by
    cases locs with
    | nil => exact absurd rfl hne
    | cons a l => simp
  have hhead0 : locs.getD 0 0 = 0 := by
    cases locs with
    | nil => exact absurd rfl hne
    | cons a l => simpa using hhead
  obtain ⟨hlo, hhiB, hall, hat⟩ :=
    bisect_left_spec locs pos hmono 0 locs.length (Nat.zero_le _) (Nat.le_refl _)
  have hfl : Partition.find_loc locs pos = bisect_left locs pos 0 locs.length := rfl
  unfold Partition.end_loc at hposle
  rw [hfl]
  set r := bisect_left locs pos 0 locs.length with hr
  have hrle : r ≤ locs.length - 1 := by
    by_contra hcon
    have hrlen : r = locs.length := by omega
    have hlt : locs.getD (locs.length - 1) 0 < pos := hall (locs.length - 1) (Nat.zero_le _) (by omega)
    omega
  refine ⟨hrle, ?_, ?_⟩
  · intro hp0
    by_contra hcon
    have h0r : 0 < r := by omega
    have := hall 0 (Nat.le_refl 0) h0r
    omega
  · intro hp1
    have hr1 : 1 ≤ r := by
      by_contra hcon
      have hr0 : r = 0 := by omega
      have := hat (by omega)
      rw [hr0] at this
      omega
    have hchk : Partition.check_index locs ((r : Nat) - 1 : Int) = .ok (r - 1) := by
      unfold Partition.check_index Partition.size
      rw [if_neg (by omega), if_neg (by omega)]
      congr 1
      omega
    have hfirst : Partition.first locs ((r : Nat) - 1 : Int) = .ok (locs.getD (r - 1) 0) := by
      unfold Partition.first
      rw [hchk]
    have hlast : Partition.last locs ((r : Nat) - 1 : Int) = .ok (locs.getD r 0 - 1) := by
      unfold Partition.last
      rw [hchk]
      show Except.ok (locs.getD (r - 1 + 1) 0 - 1) = Except.ok (locs.getD r 0 - 1)
      rw [Nat.sub_add_cancel hr1]
    have hbelow : locs.getD (r - 1) 0 < pos := hall (r - 1) (Nat.zero_le _) (by omega)
    have habove : pos ≤ locs.getD r 0 := hat (by omega)
    exact ⟨hr1, hfirst, hlast, hbelow, by omega⟩

/-- C6 witness: the amended theorem applied to the Partition `[0, 2, 5]`
(chunks of sizes 2 and 3) at position 1: `find_loc` yields 1, `first(0)`
and `last(0)` are valid and bracket the position. -/
theorem C6_find_loc_amended_witness :
    1 ≤ Partition.find_loc [0, 2, 5] 1 ∧
    Partition.first [0, 2, 5] ((Partition.find_loc [0, 2, 5] 1 : Nat) - 1 : Int)
      = .ok (([0, 2, 5] : List Int).getD (Partition.find_loc [0, 2, 5] 1 - 1) 0) ∧
    Partition.last [0, 2, 5] ((Partition.find_loc [0, 2, 5] 1 : Nat) - 1 : Int)
      = .ok (([0, 2, 5] : List Int).getD (Partition.find_loc [0, 2, 5] 1) 0 - 1) ∧
    ([0, 2, 5] : List Int).getD (Partition.find_loc [0, 2, 5] 1 - 1) 0 < 1 ∧
    (1 : Int) ≤ (([0, 2, 5] : List Int).getD (Partition.find_loc [0, 2, 5] 1) 0 - 1) + 1 :=
  (C6_find_loc_amended [0, 2, 5] 1 (by decide) (by decide) (by decide) (by decide)
    (by decide)).2.2 (by decide)

/-- C9 witness: the full-buffer selection, from offset 0 to offset 5. -/
theorem C9_indent_scenario_witness :
    BaseConsole.indent_selection ("ab\ncd".toList) ("    ".toList) 0 5 true
      = ("    ab\n    cd".toList, ((0 : Nat) : Int) + 4, ((5 : Nat) : Int) + 8) :=
  C9_indent_scenario 0 5 (by decide) (by decide) (by decide)
